import Mathlib

/-!
# Verification of the portfolio background-animation engine

Shallow embedding of the particle-network and dot-grid animation code of
`src/js/main.js` (classes `ParticleNetwork` and `DotGrid`), together with
proofs of the specified properties.  Numeric JavaScript values are modelled
as real numbers; the JavaScript `null` sentinel (used for the mouse
coordinates, the burst start time and the per-particle settled origin) is
modelled with `Option`.
-/

namespace Portfolio

noncomputable section

open Real

/-- Configuration record of `ParticleNetwork` (`this.config` in the
constructor).  The source fixes it to the literal `defaultConfig` below. -/
structure NNConfig where
  particleCount : ℕ
  connectionDistance : ℝ
  drift : ℝ
  nodeMinR : ℝ
  nodeMaxR : ℝ
  coreColor : ℝ × ℝ × ℝ
  edgeColor : ℝ × ℝ × ℝ

/-- The literal configuration object built in the `ParticleNetwork`
constructor. -/
def defaultConfig : NNConfig :=
  { particleCount := 90
    connectionDistance := 160
    drift := 0.18
    nodeMinR := 1.2
    nodeMaxR := 3.0
    coreColor := (122, 176, 179)
    edgeColor := (29, 84, 109) }

/-- Mouse interaction radius (`this.mouse.radius = 180`). -/
def mouseRadius : ℝ := 180

/-- Burst duration in milliseconds (`this.burstDuration = 2200`). -/
def burstDuration : ℝ := 2200

/-- A particle record, as pushed by `createParticles`.  `ox`/`oy` start as
`null` (`none`) and hold the settled drift origin once the burst is done. -/
structure Particle where
  x : ℝ
  y : ℝ
  tx : ℝ
  ty : ℝ
  size : ℝ
  normDist : ℝ
  driftAngle : ℝ
  driftSpeed : ℝ
  driftRadius : ℝ
  ox : Option ℝ
  oy : Option ℝ

instance : Inhabited Particle :=
  ⟨{ x := 0, y := 0, tx := 0, ty := 0, size := 0, normDist := 0,
     driftAngle := 0, driftSpeed := 0, driftRadius := 0, ox := none, oy := none }⟩

/-- `easeOutExpo(t) = t === 1 ? 1 : 1 - Math.pow(2, -10 * t)`. -/
def easeOutExpo (t : ℝ) : ℝ :=
  if t = 1 then 1 else 1 - (2 : ℝ) ^ (-10 * t)

/-- The eased local burst progress of a particle with normalised distance
`normDist` at global burst clock `burstT` (the body of the non-`burstDone`
branch of `ParticleNetwork.update`):
stagger delay, clamped local progress, then `easeOutExpo`. -/
def easedLocal (normDist burstT : ℝ) : ℝ :=
  let delay := normDist * 0.25
  let localT := max 0 ((burstT - delay) / (1 - delay))
  easeOutExpo (min localT 1)

/-- Soft mouse repulsion displacement applied to a settled particle at
position `(px, py)` (the `this.mouse.x !== null` block of
`ParticleNetwork.update`); the absent pointer contributes nothing. -/
def repelDelta (mouse : Option (ℝ × ℝ)) (px py : ℝ) : ℝ × ℝ :=
  match mouse with
  | none => (0, 0)
  | some (mx, my) =>
    let dx := px - mx
    let dy := py - my
    let dist := Real.sqrt (dx * dx + dy * dy)
    if dist < mouseRadius then
      let force := (mouseRadius - dist) / mouseRadius
      (dx * force * 0.025, dy * force * 0.025)
    else (0, 0)

/-- One `ParticleNetwork.update` step for a single particle: the body of the
`particles.forEach` loop, at canvas centre `(cx, cy)`, pointer state `mouse`
and global burst clock `burstT` (`burstDone` is `burstT >= 1`). -/
def stepParticle (cx cy : ℝ) (mouse : Option (ℝ × ℝ)) (burstT : ℝ)
    (p : Particle) : Particle :=
  if burstT < 1 then
    let delay := p.normDist * 0.25
    let localT := max 0 ((burstT - delay) / (1 - delay))
    let eased := easeOutExpo (min localT 1)
    let x := cx + (p.tx - cx) * eased
    let y := cy + (p.ty - cy) * eased
    if 1 ≤ eased ∧ p.ox = none then
      { p with x := x, y := y, ox := some p.tx, oy := some p.ty }
    else
      { p with x := x, y := y }
  else
    let q := if p.ox = none then { p with ox := some p.tx, oy := some p.ty } else p
    let ang := q.driftAngle + 0.004
    let bx := q.ox.getD 0 + Real.cos ang * q.driftRadius * q.driftSpeed
    let sy := q.oy.getD 0 + Real.sin ang * q.driftRadius * q.driftSpeed
    let d := repelDelta mouse bx sy
    { q with x := bx + d.1, y := sy + d.2, driftAngle := ang }

/-- Full state of a `ParticleNetwork` instance. -/
structure NetworkState where
  width : ℝ
  height : ℝ
  config : NNConfig
  particles : List Particle
  mouse : Option (ℝ × ℝ)
  startTime : Option ℝ
  burstReady : Bool
  isVisible : Bool

/-- `ParticleNetwork.createParticles`: regenerates the particle array from
fresh randomness.  `rnd` models the stream of `Math.random()` results, six
draws per particle in source order (angle, radius, size, drift angle, drift
speed, drift radius). -/
def createParticles (cfg : NNConfig) (w h : ℝ) (rnd : ℕ → ℝ) : List Particle :=
  let cx := w / 2
  let cy := h / 2
  let maxR := max w h * 0.56
  (List.range cfg.particleCount).map fun i =>
    let angle := rnd (6 * i) * (2 * Real.pi)
    let r := maxR * (0.15 + rnd (6 * i + 1) * 0.85)
    { x := cx, y := cy
      tx := cx + Real.cos angle * r
      ty := cy + Real.sin angle * r
      size := cfg.nodeMinR + rnd (6 * i + 2) * (cfg.nodeMaxR - cfg.nodeMinR)
      normDist := r / maxR
      driftAngle := rnd (6 * i + 3) * (2 * Real.pi)
      driftSpeed := (0.4 + rnd (6 * i + 4) * 0.6) * cfg.drift
      driftRadius := 6 + rnd (6 * i + 5) * 18
      ox := none, oy := none }

/-- The `ParticleNetwork` constructor body parameterised by the
configuration record it installs: it stores the config, sizes the canvas,
creates the particles and performs no validation whatsoever before
proceeding.  The source always installs the literal `defaultConfig`
(see `mkNetwork`). -/
def mkNetworkCfg (cfg : NNConfig) (w h : ℝ) (rnd : ℕ → ℝ) : NetworkState :=
  { width := w
    height := h
    config := cfg
    particles := createParticles cfg w h rnd
    mouse := none
    startTime := none
    burstReady := false
    isVisible := true }

/-- `new ParticleNetwork(canvas)`: the constructor with the hard-coded
configuration literal of the source. -/
def mkNetwork (w h : ℝ) (rnd : ℕ → ℝ) : NetworkState :=
  mkNetworkCfg defaultConfig w h rnd

/-- The `resize` event handler registered in `bindEvents`: resize the
canvas, regenerate the particles, and clear `startTime` ("restart burst on
resize").  Note that `burstReady` is left untouched. -/
def resizeHandler (w h : ℝ) (rnd : ℕ → ℝ) (s : NetworkState) : NetworkState :=
  { s with width := w
           height := h
           particles := createParticles s.config w h rnd
           startTime := none }

/-- `ParticleNetwork.startBurst`: arm the burst, clear the clock, and put
every particle back at the canvas centre with a cleared origin. -/
def startBurst (s : NetworkState) : NetworkState :=
  let cx := s.width / 2
  let cy := s.height / 2
  { s with burstReady := true
           startTime := none
           particles := s.particles.map fun p =>
             { p with x := cx, y := cy, ox := none, oy := none } }

/-- `ParticleNetwork.update(timestamp)`: set `startTime` on first use,
derive the clamped burst clock, step every particle, and return the new
state together with the `burstT` value handed to `draw`.  The source's
`if (!this.startTime)` is a JavaScript falsiness test, so both `null` and
a stored timestamp of `0` count as an unset clock and restart it. -/
def updateState (ts : ℝ) (s : NetworkState) : NetworkState × ℝ :=
  let start :=
    match s.startTime with
    | none => ts
    | some t => if t = 0 then ts else t
  let elapsed := ts - start
  let burstT := min (elapsed / burstDuration) 1
  let cx := s.width / 2
  let cy := s.height / 2
  ({ s with startTime := some start
            particles := s.particles.map (stepParticle cx cy s.mouse burstT) },
   burstT)

/-- Whether one `animate` frame reaches the `update`/`draw` pair: `animate`
returns before drawing when the tab is hidden or when `burstReady` is still
false ("waiting for splash to clear — draw nothing"). -/
def framePaints (s : NetworkState) : Bool :=
  s.isVisible && s.burstReady

/-- Euclidean distance between the rendered positions of two particles
(`Math.sqrt(dx * dx + dy * dy)` in `draw`). -/
def distP (a b : Particle) : ℝ :=
  Real.sqrt ((a.x - b.x) * (a.x - b.x) + (a.y - b.y) * (a.y - b.y))

/-- `lineAlpha`: edges fade in during the last 60% of the burst. -/
def lineAlpha (burstT : ℝ) : ℝ :=
  min 1 (max 0 ((burstT - 0.4) / 0.6))

/-- The set of index pairs `(i, j)`, `i < j`, whose connecting line
`ParticleNetwork.draw` strokes: the nested `i`/`j = i+1` loops guarded by
`lineAlpha > 0`, keeping the pairs with `dist < connectionDistance`. -/
def pairEdges (thr : ℝ) (ps : List Particle) (burstT : ℝ) : List (ℕ × ℕ) :=
  if 0 < lineAlpha burstT then
    (List.range ps.length).flatMap fun i =>
      (((List.range ps.length).filter fun j => decide (i < j)).filter fun j =>
          decide (distP (ps.getD i default) (ps.getD j default) < thr)).map
        fun j => (i, j)
  else []

/-- Mouse highlight multiplier for an edge between rendered positions
`(ax, ay)` and `(bx, bY)` (the `boost` computation in `draw`). -/
def edgeBoost (mouse : Option (ℝ × ℝ)) (ax ay bx bY : ℝ) : ℝ :=
  match mouse with
  | none => 1
  | some (mx, my) =>
    let midX := (ax + bx) * 0.5 - mx
    let midY := (ay + bY) * 0.5 - my
    let mdist := Real.sqrt (midX * midX + midY * midY)
    if mdist < mouseRadius then 1 + (1 - mdist / mouseRadius) * 2.5 else 1

/-- Mouse glow multiplier for a node at rendered position `(px, py)`
(the `glowBoost` computation in `draw`). -/
def glowBoost (mouse : Option (ℝ × ℝ)) (px py : ℝ) : ℝ :=
  match mouse with
  | none => 1
  | some (mx, my) =>
    let dx := px - mx
    let dy := py - my
    let dist := Real.sqrt (dx * dx + dy * dy)
    if dist < mouseRadius then 1 + (1 - dist / mouseRadius) * 1.8 else 1

/-- Node alpha in `draw` (before the final `min … 1` clamp). -/
def nodeAlpha (burstT : ℝ) (p : Particle) : ℝ :=
  (0.55 + (1 - p.normDist) * 0.45) * max (lineAlpha burstT) (burstT * 1.5)

/-- `blendToCenter(norm)` from `ParticleNetwork.draw`: per-channel linear
blend from the core to the edge colour with `t = Math.min(norm, 1)`,
rounded to integer channels. -/
def blendToCenter (cfg : NNConfig) (norm : ℝ) : ℤ × ℤ × ℤ :=
  let t := min norm 1
  (round (cfg.coreColor.1 + (cfg.edgeColor.1 - cfg.coreColor.1) * t),
   round (cfg.coreColor.2.1 + (cfg.edgeColor.2.1 - cfg.coreColor.2.1) * t),
   round (cfg.coreColor.2.2 + (cfg.edgeColor.2.2 - cfg.coreColor.2.2) * t))

/-- The colour blend as the specification words it: per channel
`core + (edge − core) × clamp(t, 0, 1)`, rounded.  Stated for comparison
with the source's `blendToCenter`. -/
def specBlendClamp (cfg : NNConfig) (norm : ℝ) : ℤ × ℤ × ℤ :=
  let t := min (max norm 0) 1
  (round (cfg.coreColor.1 + (cfg.edgeColor.1 - cfg.coreColor.1) * t),
   round (cfg.coreColor.2.1 + (cfg.edgeColor.2.1 - cfg.coreColor.2.1) * t),
   round (cfg.coreColor.2.2 + (cfg.edgeColor.2.2 - cfg.coreColor.2.2) * t))

/-- Dot-grid configuration (`this.config` of `DotGrid`). -/
structure DGConfig where
  spacing : ℝ
  dotRadius : ℝ
  revealRadius : ℝ
  baseOpacity : ℝ
  peakOpacity : ℝ
  baseColor : ℝ × ℝ × ℝ
  glowColor : ℝ × ℝ × ℝ
  lerpSpeed : ℝ

/-- The literal dot-grid configuration of the source. -/
def dotGridConfig : DGConfig :=
  { spacing := 32
    dotRadius := 1.2
    revealRadius := 200
    baseOpacity := 0.06
    peakOpacity := 0.55
    baseColor := (95, 149, 152)
    glowColor := (122, 176, 179)
    lerpSpeed := 0.1 }

/-- The smoothstep-eased pointer proximity of a dot at `(x, y)` for the
smoothed pointer `(mx, my)` (the per-dot body of `DotGrid.draw`). -/
def dotEased (x y mx my : ℝ) : ℝ :=
  let dx := x - mx
  let dy := y - my
  let dist := Real.sqrt (dx * dx + dy * dy)
  let proximity := max 0 (1 - dist / dotGridConfig.revealRadius)
  proximity * proximity * (3 - 2 * proximity)

/-- The opacity `DotGrid.draw` renders for a dot at `(x, y)` with the
smoothed pointer at `(mx, my)`. -/
def dotOpacity (x y mx my : ℝ) : ℝ :=
  dotGridConfig.baseOpacity +
    (dotGridConfig.peakOpacity - dotGridConfig.baseOpacity) * dotEased x y mx my

/-- Iterated `update` steps of a single particle: each tick supplies the
canvas centre, the pointer state and the burst clock of that frame. -/
def applyTicks (ticks : List (ℝ × ℝ × Option (ℝ × ℝ) × ℝ)) (p : Particle) :
    Particle :=
  ticks.foldl (fun q c => stepParticle c.1 c.2.1 c.2.2.1 c.2.2.2 q) p

/-- A concrete particle one tick before burst completion: target `(100, 0)`,
drift phase chosen so the post-increment drift angle is `0`. -/
def pCex : Particle :=
  { x := 0, y := 0, tx := 100, ty := 0, size := 2, normDist := 0.5,
    driftAngle := -0.004, driftSpeed := 0.072, driftRadius := 6,
    ox := none, oy := none }

/-- A concrete network state whose burst started at timestamp 100 (a
truthy value, so the running clock is kept) and owns the single particle
`pCex`. -/
def sCex : NetworkState :=
  { width := 800, height := 600, config := defaultConfig,
    particles := [pCex], mouse := none, startTime := some 100,
    burstReady := true, isVisible := true }

/-- A concrete network state in the middle of a burst (trigger fired,
clock running). -/
def sMid : NetworkState :=
  { width := 800, height := 600, config := defaultConfig,
    particles := [], mouse := none, startTime := some 1000,
    burstReady := true, isVisible := true }

/-- A concrete particle whose origin has already been frozen (to the
values 5 and 7, deliberately distinct from its target). -/
def pW : Particle :=
  { x := 0, y := 0, tx := 10, ty := 20, size := 2, normDist := 0.3,
    driftAngle := 0, driftSpeed := 0.1, driftRadius := 6,
    ox := some 5, oy := some 7 }

/-- The same particle with its origin still unset. -/
def pW2 : Particle :=
  { pW with ox := none, oy := none }

/-- A concrete particle for exercising `startBurst`, away from the centre
with a stale origin. -/
def pT : Particle :=
  { x := 33, y := 44, tx := 70, ty := 80, size := 2, normDist := 0.6,
    driftAngle := 1, driftSpeed := 0.1, driftRadius := 10,
    ox := some 70, oy := some 80 }

/-- A concrete settled network state owning `pT`. -/
def sT : NetworkState :=
  { width := 200, height := 100, config := defaultConfig,
    particles := [pT], mouse := none, startTime := some 42,
    burstReady := true, isVisible := true }

/-- A particle rendered at the point `(0, 0)`. -/
def pA : Particle :=
  { x := 0, y := 0, tx := 0, ty := 0, size := 2, normDist := 0.2,
    driftAngle := 0, driftSpeed := 0.1, driftRadius := 6,
    ox := some 0, oy := some 0 }

/-- A particle rendered at the point `(160, 0)` — exactly
`connectionDistance` away from `pA`. -/
def pB : Particle :=
  { x := 160, y := 0, tx := 160, ty := 0, size := 2, normDist := 0.4,
    driftAngle := 0, driftSpeed := 0.1, driftRadius := 6,
    ox := some 160, oy := some 0 }

/-- The default configuration with the connection threshold forced to
zero, for probing the (absent) startup validation. -/
def zeroThresholdConfig : NNConfig :=
  { defaultConfig with connectionDistance := 0 }

/-! ## Theorems -/

/-- `easeOutExpo` never exceeds 1. -/
theorem easeOutExpo_le_one (t : ℝ) : easeOutExpo t ≤ 1 := by
  unfold easeOutExpo
  split
  · exact le_refl 1
  · have h := Real.rpow_pos_of_pos two_pos (-10 * t)
    linarith

/-- `easeOutExpo` is monotone on `(-∞, 1]`. -/
theorem easeOutExpo_mono_of_le_one {t1 t2 : ℝ} (h12 : t1 ≤ t2) (h2 : t2 ≤ 1) :
    easeOutExpo t1 ≤ easeOutExpo t2 := by
  rcases eq_or_lt_of_le h2 with he | hlt
  · rw [he]
    simpa [easeOutExpo] using easeOutExpo_le_one t1
  · have h1 : t1 < 1 := lt_of_le_of_lt h12 hlt
    unfold easeOutExpo
    rw [if_neg (ne_of_lt h1), if_neg (ne_of_lt hlt)]
    have hm : (2:ℝ) ^ (-10 * t2) ≤ (2:ℝ) ^ (-10 * t1) := by
      rw [Real.rpow_le_rpow_left_iff (by norm_num : (1:ℝ) < 2)]
      linarith
    linarith

/-- C7: for any particle (any `normDist ∈ [0,1]`), the eased local burst
progress — `easeOutExpo` of the clamped, stagger-delayed local progress —
is non-decreasing as the global burst clock advances monotonically from 0
to 1. -/
theorem eased_local_mono (nd b1 b2 : ℝ) (h0 : 0 ≤ nd) (h1 : nd ≤ 1)
    (hb1 : 0 ≤ b1) (hb : b1 ≤ b2) (hb2 : b2 ≤ 1) :
    easedLocal nd b1 ≤ easedLocal nd b2 := by
  unfold easedLocal
  have hden : (0:ℝ) < 1 - nd * 0.25 := by nlinarith
  apply easeOutExpo_mono_of_le_one
  · refine min_le_min ?_ le_rfl
    refine max_le_max le_rfl ?_
    rw [div_le_div_iff_of_pos_right hden]
    linarith
  · exact min_le_right _ 1

/-- Witness for C7 at `normDist = 0`, burst clock advancing `0 → 1`. -/
theorem eased_local_mono_witness : easedLocal 0 0 ≤ easedLocal 0 1 :=
  eased_local_mono 0 0 1 le_rfl zero_le_one le_rfl zero_le_one le_rfl

/-- C6: when the pointer is absent (`mouse.x === null`), every
pointer-driven computation yields exactly its base value: the repulsion
displacement is `(0, 0)`, the edge-alpha boost is 1, the node glow boost is
1, and the settled position (burst clock at 1) is exactly the drift base —
origin plus the circular drift offset — with nothing added. -/
theorem pointer_absent_base (px py ax ay bx bY qx qy cx cy : ℝ) (p : Particle) :
    repelDelta none px py = (0, 0) ∧
    edgeBoost none ax ay bx bY = 1 ∧
    glowBoost none qx qy = 1 ∧
    ((stepParticle cx cy none 1 p).x =
      (if p.ox = none then { p with ox := some p.tx, oy := some p.ty }
       else p).ox.getD 0 +
        Real.cos (p.driftAngle + 0.004) * p.driftRadius * p.driftSpeed) ∧
    ((stepParticle cx cy none 1 p).y =
      (if p.ox = none then { p with ox := some p.tx, oy := some p.ty }
       else p).oy.getD 0 +
        Real.sin (p.driftAngle + 0.004) * p.driftRadius * p.driftSpeed) := by
  refine ⟨rfl, rfl, rfl, ?_, ?_⟩ <;>
  · unfold stepParticle
    rw [if_neg (by norm_num : ¬ (1:ℝ) < 1)]
    split <;> simp [repelDelta]

/-- C8: for every dot of the grid and any smoothed pointer position, the
rendered opacity lies within `[baseOpacity, peakOpacity]` (design values
`[0.06, 0.55]`). -/
theorem dot_opacity_bounds (x y mx my : ℝ) :
    dotGridConfig.baseOpacity ≤ dotOpacity x y mx my ∧
    dotOpacity x y mx my ≤ dotGridConfig.peakOpacity := by
  have hd : 0 ≤ Real.sqrt ((x - mx) * (x - mx) + (y - my) * (y - my)) :=
    Real.sqrt_nonneg _
  unfold dotOpacity dotEased dotGridConfig
  simp only
  set D := Real.sqrt ((x - mx) * (x - mx) + (y - my) * (y - my)) with hD
  set P := max 0 (1 - D / 200) with hP
  have h0 : 0 ≤ P := le_max_left 0 _
  have h1 : P ≤ 1 := by
    apply max_le (by norm_num)
    have : 0 ≤ D / 200 := by positivity
    linarith
  have e0 : 0 ≤ P * P * (3 - 2 * P) := by nlinarith
  have e1 : P * P * (3 - 2 * P) ≤ 1 := by nlinarith [sq_nonneg (1 - P)]
  constructor <;> nlinarith

/-- C5 counterexample: the code's blend uses `Math.min(norm, 1)` with no
lower clamp, so at `t = -1` it extrapolates past the core colour instead of
clamping to it: the channels disagree with the spec's
`clamp(t, 0, 1)` formula. -/
theorem blend_clamp_cex :
    blendToCenter defaultConfig (-1) ≠ specBlendClamp defaultConfig (-1) := by
  have h1 : min (-1 : ℝ) 1 = -1 := by norm_num
  have h2 : min (max (-1 : ℝ) 0) 1 = 0 := by norm_num
  simp only [blendToCenter, specBlendClamp, defaultConfig, h1, h2, ne_eq,
    Prod.mk.injEq, not_and]
  intro h
  norm_num [round_eq] at h

/-- C5 (amended): the blend computes, per channel,
`core + (edge − core) × min(t, 1)` rounded to an integer; for all `t ≥ 0`
this agrees with the spec's `clamp(t,0,1)` formula, and `blend(0)` is
exactly the core colour while `blend(1)` is exactly the edge colour. -/
theorem blend_min_eq_clamp (t : ℝ) (ht : 0 ≤ t) :
    blendToCenter defaultConfig t = specBlendClamp defaultConfig t ∧
    blendToCenter defaultConfig 0 = (122, 176, 179) ∧
    blendToCenter defaultConfig 1 = (29, 84, 109) := by
  refine ⟨?_, ?_, ?_⟩
  · simp only [blendToCenter, specBlendClamp, max_eq_left ht]
  · simp only [blendToCenter, defaultConfig, Prod.mk.injEq]
    norm_num [round_eq]
  · simp only [blendToCenter, defaultConfig, Prod.mk.injEq]
    norm_num [round_eq]

/-- Witness for the amended C5 at `t = 1/2`. -/
theorem blend_min_eq_clamp_witness :
    blendToCenter defaultConfig (1 / 2) = specBlendClamp defaultConfig (1 / 2) ∧
    blendToCenter defaultConfig 0 = (122, 176, 179) := by
  have h := blend_min_eq_clamp (1 / 2) (by norm_num)
  exact ⟨h.1, h.2.1⟩

/-- A step never rewrites an already-frozen origin: both `ox` and `oy` are
kept verbatim once set. -/
theorem stepParticle_preserves_origin (cx cy : ℝ) (m : Option (ℝ × ℝ))
    (bT : ℝ) (p : Particle) (v w : ℝ) (hx : p.ox = some v) (hy : p.oy = some w) :
    (stepParticle cx cy m bT p).ox = some v ∧
    (stepParticle cx cy m bT p).oy = some w := by
  unfold stepParticle
  split
  · rw [if_neg (by simp [hx])]
    exact ⟨hx, hy⟩
  · rw [if_neg (by simp [hx])]
    exact ⟨hx, hy⟩

/-- Frozen origins survive any sequence of ticks. -/
theorem applyTicks_preserves_origin (ticks : List (ℝ × ℝ × Option (ℝ × ℝ) × ℝ))
    (p : Particle) (v w : ℝ) (hx : p.ox = some v) (hy : p.oy = some w) :
    (applyTicks ticks p).ox = some v ∧ (applyTicks ticks p).oy = some w := by
  induction ticks generalizing p with
  | nil => exact ⟨hx, hy⟩
  | cons c ts ih =>
    have h := stepParticle_preserves_origin c.1 c.2.1 c.2.2.1 c.2.2.2 p v w hx hy
    exact ih _ h.1 h.2

/-- During the burst (`burstT < 1`) the eased local progress is strictly
below 1, so the `eased >= 1` origin-freeze condition never fires early. -/
theorem easedLocal_lt_one (nd bT : ℝ) (h0 : 0 ≤ nd) (h1 : nd ≤ 1)
    (hb : bT < 1) :
    easeOutExpo (min (max 0 ((bT - nd * 0.25) / (1 - nd * 0.25))) 1) < 1 := by
  have hden : (0:ℝ) < 1 - nd * 0.25 := by nlinarith
  have hlt : max 0 ((bT - nd * 0.25) / (1 - nd * 0.25)) < 1 := by
    apply max_lt one_pos
    rw [div_lt_one hden]
    linarith
  rw [min_eq_left hlt.le]
  unfold easeOutExpo
  rw [if_neg (ne_of_lt hlt)]
  have := Real.rpow_pos_of_pos two_pos (-10 * max 0 ((bT - nd * 0.25) / (1 - nd * 0.25)))
  linarith

/-- C4: the origin fields `(ox, oy)` are assigned at most once per burst:
an update step never changes the target, never rewrites a set origin (also
across any sequence of subsequent ticks), and from the unset state it
assigns exactly the target coordinates — and only when the global clock
has reached 1; during the burst (`burstT < 1`) the eased progress stays
below 1 and the origin stays unset. -/
theorem origin_write_once (cx cy bT : ℝ) (m : Option (ℝ × ℝ)) (p : Particle)
    (h0 : 0 ≤ p.normDist) (h1 : p.normDist ≤ 1) :
    (stepParticle cx cy m bT p).tx = p.tx ∧
    (stepParticle cx cy m bT p).ty = p.ty ∧
    (∀ v w, p.ox = some v → p.oy = some w →
       (stepParticle cx cy m bT p).ox = some v ∧
       (stepParticle cx cy m bT p).oy = some w) ∧
    (p.ox = none →
       (stepParticle cx cy m bT p).ox = (if 1 ≤ bT then some p.tx else none) ∧
       (stepParticle cx cy m bT p).oy = (if 1 ≤ bT then some p.ty else p.oy)) ∧
    (∀ ticks v w, p.ox = some v → p.oy = some w →
       (applyTicks ticks p).ox = some v ∧ (applyTicks ticks p).oy = some w) := by
  refine ⟨?_, ?_, ?_, ?_, ?_⟩
  · unfold stepParticle
    split
    · dsimp only
      split <;> rfl
    · dsimp only
      split <;> rfl
  · unfold stepParticle
    split
    · dsimp only
      split <;> rfl
    · dsimp only
      split <;> rfl
  · exact fun v w hx hy => stepParticle_preserves_origin cx cy m bT p v w hx hy
  · intro hox
    by_cases hb : bT < 1
    · rw [if_neg (not_le.mpr hb), if_neg (not_le.mpr hb)]
      have hlt := easedLocal_lt_one p.normDist bT h0 h1 hb
      unfold stepParticle
      rw [if_pos hb, if_neg (by intro hc; exact absurd hc.1 (not_le.mpr hlt))]
      exact ⟨hox, rfl⟩
    · rw [if_pos (not_lt.mp hb), if_pos (not_lt.mp hb)]
      unfold stepParticle
      rw [if_neg hb, if_pos hox]
      exact ⟨rfl, rfl⟩
  · exact fun ticks v w hx hy => applyTicks_preserves_origin ticks p v w hx hy

/-- Witness for C4: a set origin survives one step and a two-tick run; an
unset origin stays unset while the clock is at 1/2. -/
theorem origin_write_once_witness :
    (stepParticle 0 0 none (1/2) pW).ox = some 5 ∧
    (stepParticle 0 0 none (1/2) pW2).ox = none ∧
    (applyTicks [(0, 0, none, 1/2), (1, 1, none, 2)] pW).ox = some 5 := by
  have h := origin_write_once 0 0 (1/2) none pW (by norm_num [pW]) (by norm_num [pW])
  have h2 := origin_write_once 0 0 (1/2) none pW2
    (by norm_num [pW2, pW]) (by norm_num [pW2, pW])
  refine ⟨(h.2.2.1 5 7 rfl rfl).1, ?_,
    (h.2.2.2.2 [(0, 0, none, 1/2), (1, 1, none, 2)] 5 7 rfl rfl).1⟩
  have h3 := (h2.2.2.2.1 rfl).1
  rwa [if_neg (by norm_num)] at h3

/-- C1 counterexample: with the design configuration and a burst started
at timestamp 100, the update at timestamp 2300 (`elapsed = 2200`, global
progress 1) is already in the settle branch, so the rendered position is
the target plus the circular drift offset: for the particle `pCex` the
offset is `cos 0 · 6 · 0.072 = 0.432`, far outside the claimed `1e-3`
tolerance. -/
theorem burst_completion_cex :
    ¬ |((updateState 2300 sCex).1.particles.getD 0 default).x - pCex.tx| ≤ 0.001 := by
  have hstep : ((updateState 2300 sCex).1.particles.getD 0 default).x = 100.432 := by
    simp only [updateState, sCex, List.map_cons, List.map_nil,
      List.getD_cons_zero]
    rw [if_neg (by norm_num : ¬ (100:ℝ) = 0)]
    rw [show min ((2300 - (100:ℝ)) / burstDuration) 1 = 1 by
      norm_num [burstDuration]]
    unfold stepParticle
    rw [if_neg (by norm_num)]
    simp only [pCex, reduceCtorEq, if_pos rfl, repelDelta]
    norm_num [show (-0.004 : ℝ) + 0.004 = 0 by norm_num, Real.cos_zero]
  rw [hstep]
  simp only [pCex]
  rw [abs_of_nonneg (by norm_num)]
  norm_num

/-- C1 (amended): at global burst progress ≥ 1 (pointer absent), every
particle's origin is frozen to its target and its rendered position equals
the target plus the circular drift offset — within
`driftRadius · driftSpeed` of the target (design amplitude up to 4.32),
not within `1e-3`. -/
theorem burst_completion_drift (cx cy bT : ℝ) (p : Particle) (hb : 1 ≤ bT)
    (hR : 0 ≤ p.driftRadius) (hS : 0 ≤ p.driftSpeed)
    (hox : p.ox = none ∨ (p.ox = some p.tx ∧ p.oy = some p.ty)) :
    (stepParticle cx cy none bT p).ox = some p.tx ∧
    (stepParticle cx cy none bT p).oy = some p.ty ∧
    |(stepParticle cx cy none bT p).x - p.tx| ≤ p.driftRadius * p.driftSpeed ∧
    |(stepParticle cx cy none bT p).y - p.ty| ≤ p.driftRadius * p.driftSpeed := by
  have hcos : |Real.cos (p.driftAngle + 0.004)| ≤ 1 := Real.abs_cos_le_one _
  have hsin : |Real.sin (p.driftAngle + 0.004)| ≤ 1 := Real.abs_sin_le_one _
  have hbound : ∀ c : ℝ, |c| ≤ 1 →
      |c * p.driftRadius * p.driftSpeed| ≤ p.driftRadius * p.driftSpeed := by
    intro c hc
    rw [abs_mul, abs_mul, abs_of_nonneg hR, abs_of_nonneg hS]
    calc |c| * p.driftRadius * p.driftSpeed
        ≤ 1 * p.driftRadius * p.driftSpeed :=
          mul_le_mul_of_nonneg_right (mul_le_mul_of_nonneg_right hc hR) hS
      _ = p.driftRadius * p.driftSpeed := by ring
  unfold stepParticle
  rw [if_neg (not_lt.mpr hb)]
  rcases hox with hox | ⟨hox, hoy⟩
  · rw [if_pos hox]
    simp only [repelDelta, Option.getD_some, add_zero]
    refine ⟨trivial, trivial, ?_, ?_⟩
    · rw [add_sub_cancel_left]
      exact hbound _ hcos
    · rw [add_sub_cancel_left]
      exact hbound _ hsin
  · rw [if_neg (by simp [hox])]
    simp only [repelDelta, hox, hoy, Option.getD_some, add_zero]
    refine ⟨trivial, trivial, ?_, ?_⟩
    · rw [add_sub_cancel_left]
      exact hbound _ hcos
    · rw [add_sub_cancel_left]
      exact hbound _ hsin

/-- Witness for the amended C1 on the concrete particle `pCex` at burst
clock 1. -/
theorem burst_completion_drift_witness :
    (stepParticle 400 300 none 1 pCex).ox = some pCex.tx ∧
    |(stepParticle 400 300 none 1 pCex).x - pCex.tx| ≤
      pCex.driftRadius * pCex.driftSpeed := by
  have h := burst_completion_drift 400 300 1 pCex le_rfl
    (by norm_num [pCex]) (by norm_num [pCex]) (Or.inl rfl)
  exact ⟨h.1, h.2.2.1⟩

/-- At burst clock 0 a step leaves every particle at the canvas centre and
its origin untouched. -/
theorem stepParticle_at_zero (cx cy : ℝ) (m : Option (ℝ × ℝ)) (p : Particle)
    (h0 : 0 ≤ p.normDist) (h1 : p.normDist ≤ 1) :
    (stepParticle cx cy m 0 p).x = cx ∧ (stepParticle cx cy m 0 p).y = cy ∧
    (stepParticle cx cy m 0 p).ox = p.ox ∧ (stepParticle cx cy m 0 p).oy = p.oy := by
  have hden : (0:ℝ) < 1 - p.normDist * 0.25 := by nlinarith
  have hneg : (0 - p.normDist * 0.25) / (1 - p.normDist * 0.25) ≤ 0 :=
    div_nonpos_of_nonpos_of_nonneg (by nlinarith) hden.le
  have hmax : max 0 ((0 - p.normDist * 0.25) / (1 - p.normDist * 0.25)) = 0 :=
    max_eq_left hneg
  have heas : easeOutExpo 0 = 0 := by
    unfold easeOutExpo
    rw [if_neg (by norm_num)]
    norm_num
  unfold stepParticle
  rw [if_pos (by norm_num : (0:ℝ) < 1)]
  dsimp only
  rw [hmax, min_eq_left zero_le_one, heas,
    if_neg (fun hc => absurd hc.1 (by norm_num))]
  exact ⟨by ring, by ring, rfl, rfl⟩

/-- C10: `startBurst` establishes the fresh-burst postcondition — the
burst is armed, the clock is cleared, every particle sits at the canvas
centre with a cleared origin — and the first update after the trigger
reports burst progress 0 and leaves every particle rendered at the
centre. -/
theorem startBurst_fresh (s : NetworkState) (ts : ℝ)
    (hnd : ∀ p ∈ s.particles, 0 ≤ p.normDist ∧ p.normDist ≤ 1) :
    (startBurst s).burstReady = true ∧
    (startBurst s).startTime = none ∧
    (∀ p ∈ (startBurst s).particles,
       p.x = s.width / 2 ∧ p.y = s.height / 2 ∧ p.ox = none ∧ p.oy = none) ∧
    (updateState ts (startBurst s)).2 = 0 ∧
    (∀ p ∈ (updateState ts (startBurst s)).1.particles,
       p.x = s.width / 2 ∧ p.y = s.height / 2) := by
  refine ⟨rfl, rfl, ?_, ?_, ?_⟩
  · intro p hp
    simp only [startBurst, List.mem_map] at hp
    obtain ⟨q, hq, rfl⟩ := hp
    exact ⟨rfl, rfl, rfl, rfl⟩
  · simp [updateState, burstDuration, startBurst]
  · intro p hp
    simp only [updateState, startBurst, Option.getD_none, List.map_map,
      List.mem_map, Function.comp] at hp
    obtain ⟨q, hq, rfl⟩ := hp
    rw [show min ((ts - ts) / burstDuration) 1 = 0 by norm_num [burstDuration]]
    have h := stepParticle_at_zero (s.width / 2) (s.height / 2) s.mouse
      { q with x := s.width / 2, y := s.height / 2, ox := none, oy := none }
      (hnd q hq).1 (hnd q hq).2
    exact ⟨h.1, h.2.1⟩

/-- Witness for C10 on the concrete settled state `sT`. -/
theorem startBurst_fresh_witness :
    (startBurst sT).burstReady = true ∧
    (updateState 5 (startBurst sT)).2 = 0 ∧
    (∀ p ∈ (updateState 5 (startBurst sT)).1.particles,
       p.x = 100 ∧ p.y = 50) := by
  have h := startBurst_fresh sT 5 (by
    intro p hp
    simp only [sT, List.mem_singleton] at hp
    subst hp
    norm_num [pT])
  refine ⟨h.1, h.2.2.2.1, ?_⟩
  intro p hp
  have hxy := h.2.2.2.2 p hp
  refine ⟨?_, ?_⟩
  · rw [hxy.1]; norm_num [sT]
  · rw [hxy.2]; norm_num [sT]

/-- C3 (amended): a resize during any phase regenerates the particles
(placed at the new centre, origins cleared) and clears only the burst
clock, so the next update restarts the burst from progress 0; `burstReady`
is left untouched — the field does *not* return to the pre-trigger idle
state. -/
theorem resize_restarts_burst (s : NetworkState) (w h : ℝ) (rnd : ℕ → ℝ)
    (ts : ℝ) :
    (resizeHandler w h rnd s).startTime = none ∧
    (resizeHandler w h rnd s).burstReady = s.burstReady ∧
    (∀ p ∈ (resizeHandler w h rnd s).particles,
       p.x = w / 2 ∧ p.y = h / 2 ∧ p.ox = none ∧ p.oy = none) ∧
    (updateState ts (resizeHandler w h rnd s)).2 = 0 := by
  refine ⟨rfl, rfl, ?_, ?_⟩
  · intro p hp
    simp only [resizeHandler, createParticles, List.mem_map] at hp
    obtain ⟨i, hi, rfl⟩ := hp
    exact ⟨rfl, rfl, rfl, rfl⟩
  · simp [updateState, resizeHandler, burstDuration]

/-- C3 counterexample: resizing the concrete mid-burst state `sMid` does
not return the field to its pre-trigger state: the frame loop still paints
(`burstReady` is untouched), and with no further trigger the burst simply
replays — two updates later the clock reads progress 1/2 and the first
particle is drawn with strictly positive alpha. -/
theorem resize_not_idle_cex :
    framePaints (resizeHandler 800 600 (fun _ => 0) sMid) = true ∧
    (updateState 4100
        ((updateState 3000 (resizeHandler 800 600 (fun _ => 0) sMid)).1)).2 =
      1 / 2 ∧
    0 < nodeAlpha (1 / 2)
        (((resizeHandler 800 600 (fun _ => 0) sMid).particles).getD 0 default) := by
  refine ⟨rfl, ?_, ?_⟩
  · simp only [updateState, resizeHandler, sMid, Option.getD_none,
      Option.getD_some]
    norm_num [burstDuration]
  · have hget : ((resizeHandler 800 600 (fun _ => 0) sMid).particles).getD 0
        default =
        { x := 400, y := 300,
          tx := 400 + Real.cos (0 * (2 * Real.pi)) * (max 800 600 * 0.56 * (0.15 + 0 * 0.85))
          ty := 300 + Real.sin (0 * (2 * Real.pi)) * (max 800 600 * 0.56 * (0.15 + 0 * 0.85))
          size := defaultConfig.nodeMinR + 0 * (defaultConfig.nodeMaxR - defaultConfig.nodeMinR)
          normDist := max 800 600 * 0.56 * (0.15 + 0 * 0.85) / (max 800 600 * 0.56)
          driftAngle := 0 * (2 * Real.pi)
          driftSpeed := (0.4 + 0 * 0.6) * defaultConfig.drift
          driftRadius := 6 + 0 * 18, ox := none, oy := none } := by
      simp only [resizeHandler, sMid, createParticles, defaultConfig]
      rw [List.getD_eq_getElem?_getD, List.getElem?_map,
        List.getElem?_range (by norm_num)]
      norm_num
    rw [hget]
    unfold nodeAlpha
    simp only
    have hnd : max (800:ℝ) 600 * 0.56 * (0.15 + 0 * 0.85) / (max 800 600 * 0.56) =
        0.15 := by norm_num
    rw [hnd]
    have hmx : (0:ℝ) < max (lineAlpha (1 / 2)) (1 / 2 * 1.5) :=
      lt_of_lt_of_le (by norm_num) (le_max_right _ _)
    nlinarith [hmx]

/-- Particle distance is a square root, hence non-negative. -/
theorem distP_nonneg (a b : Particle) : 0 ≤ distP a b :=
  Real.sqrt_nonneg _

/-- C2: for a frozen layout with the burst complete (`burstT ≥ 1`), the
rendered edge list contains an unordered pair `(i, j)` exactly when
`i < j` and the Euclidean distance of the two rendered positions is
strictly below the connection threshold — no pair is skipped, none is
drawn twice (the list is duplicate-free), and a pair at exactly the
threshold distance is excluded by the strict `<`. -/
theorem edges_bruteforce (ps : List Particle) (bT : ℝ) (hb : 1 ≤ bT) :
    (∀ i j : ℕ,
       ((i, j) ∈ pairEdges defaultConfig.connectionDistance ps bT ↔
         i < j ∧ j < ps.length ∧
           distP (ps.getD i default) (ps.getD j default) <
             defaultConfig.connectionDistance)) ∧
    (pairEdges defaultConfig.connectionDistance ps bT).Nodup := by
  have hgate : 0 < lineAlpha bT := by
    unfold lineAlpha
    have hx : (0:ℝ) < (bT - 0.4) / 0.6 := div_pos (by linarith) (by norm_num)
    exact lt_min one_pos (lt_of_lt_of_le hx (le_max_right _ _))
  constructor
  · intro i j
    rw [pairEdges, if_pos hgate]
    simp only [List.mem_flatMap, List.mem_map, List.mem_filter, List.mem_range,
      decide_eq_true_eq, Prod.mk.injEq]
    constructor
    · rintro ⟨a, ha, b, ⟨⟨hb1, hb2⟩, hb3⟩, rfl, rfl⟩
      exact ⟨hb2, hb1, hb3⟩
    · rintro ⟨hij, hjn, hd⟩
      exact ⟨i, lt_trans hij hjn, j, ⟨⟨hjn, hij⟩, hd⟩, rfl, rfl⟩
  · rw [pairEdges, if_pos hgate]
    rw [List.nodup_flatMap]
    constructor
    · intro a _
      apply List.Nodup.map
      · intro b c hbc
        exact congrArg Prod.snd hbc
      · exact ((List.nodup_range _).filter _).filter _
    · apply List.Pairwise.imp ?_ (List.pairwise_lt_range _)
      intro a b hab
      simp only [Function.onFun, List.Disjoint]
      intro x hxa hxb
      simp only [List.mem_map] at hxa hxb
      obtain ⟨ja, _, rfl⟩ := hxa
      obtain ⟨jb, _, heq⟩ := hxb
      exact ne_of_lt hab (congrArg Prod.fst heq).symm

/-- Witness for C2: two particles exactly the threshold distance apart
(160 units) produce no edge, and the edge list of that layout is
duplicate-free. -/
theorem edges_bruteforce_witness :
    (0, 1) ∉ pairEdges defaultConfig.connectionDistance [pA, pB] 1 ∧
    (pairEdges defaultConfig.connectionDistance [pA, pB] 1).Nodup := by
  have h := edges_bruteforce [pA, pB] 1 le_rfl
  refine ⟨?_, h.2⟩
  intro hmem
  have hd := ((h.1 0 1).mp hmem).2.2
  have hexact : distP ([pA, pB].getD 0 default) ([pA, pB].getD 1 default) =
      160 := by
    rw [List.getD_cons_zero, List.getD_cons_succ, List.getD_cons_zero]
    unfold distP pA pB
    simp only
    rw [show ((0:ℝ) - 160) * ((0:ℝ) - 160) + ((0:ℝ) - 0) * ((0:ℝ) - 0) =
      160 ^ 2 by norm_num]
    exact Real.sqrt_sq (by norm_num)
  rw [hexact] at hd
  exact absurd hd (by norm_num [defaultConfig])

/-- C9 counterexample: the constructor performs no configuration
validation: run with the connection threshold forced to zero it proceeds
normally, yielding a fully initialised state that carries the zero
threshold and the full particle population, instead of failing or
signalling an error. -/
theorem zero_threshold_not_rejected_cex :
    (mkNetworkCfg zeroThresholdConfig 800 600
        (fun _ => 0)).config.connectionDistance = 0 ∧
    (mkNetworkCfg zeroThresholdConfig 800 600
        (fun _ => 0)).particles.length = 90 := by
  constructor
  · rfl
  · simp [mkNetworkCfg, createParticles, zeroThresholdConfig, defaultConfig]

/-- C9 (amended): no threshold validation exists and none is needed for
safety: the source hard-codes the threshold to 160 at construction, and
even with a zero threshold the strict `<` distance test rejects every
pair, so no edge — and in particular no division by the threshold — is
ever computed. -/
theorem zero_threshold_amended :
    (mkNetwork 800 600 (fun _ => 0)).config.connectionDistance = 160 ∧
    (∀ ps bT, pairEdges 0 ps bT = []) := by
  refine ⟨rfl, ?_⟩
  intro ps bT
  unfold pairEdges
  split
  · apply List.eq_nil_iff_forall_not_mem.mpr
    intro x hx
    simp only [List.mem_flatMap, List.mem_map, List.mem_filter,
      decide_eq_true_eq] at hx
    obtain ⟨a, _, b, ⟨_, hd⟩, _⟩ := hx
    exact absurd hd (not_lt.mpr (distP_nonneg _ _))
  · rfl

end

end Portfolio
